import Mathlib

/-!
Verification of the caliper benchmarking tool (attunehq/caliper).

This file gives a shallow embedding, in Lean 4, of the parts of the Go
source that the specification's claims are about:

* `benchmark/output.go` — the statistics engine (`CalculateStatistics`,
  `percentile`).  Go `float64` arithmetic is modelled by exact rational
  arithmetic (`ℚ`); the single square root (`math.Sqrt` for the standard
  deviation) is modelled by `Real.sqrt` on the rational variance.
* `benchmark/runner.go` — the benchmark loop (`Run`, `executeCommand`),
  with the outside world (the shell command's per-run outcome) supplied
  by an oracle `ℕ → Bool × ℚ` mapping a run number to (success, seconds).
* `matrix/runner.go`, `matrix/config.go`, `cmd/matrix.go` — the matrix
  orchestrator (`runSingleConfig`, `Run`, the exit-code decision), with
  the Docker/filesystem world supplied by per-configuration oracles.

Stateful Go code is embedded as explicit state/trace passing; fallible
code returns `Except`.
-/

namespace Caliper

/-- Total list indexing used throughout the embedding: Go's `sorted[i]`
on indices that the surrounding code keeps in range. -/
def nth (l : List ℚ) (i : ℕ) : ℚ := l.getD i 0

/-- `Statistics` from `benchmark/output.go`: the eight computed metrics.
All duration-valued fields are exact rationals except `StdDev`, which is
`math.Sqrt` of the variance and hence modelled in `ℝ`. -/
structure Statistics where
  N : ℕ
  Mean : ℚ
  Median : ℚ
  StdDev : ℝ
  Min : ℚ
  Max : ℚ
  P90 : ℚ
  P95 : ℚ

/-- The all-zero `Statistics{}` value (Go zero value). -/
def Statistics.zero : Statistics := ⟨0, 0, 0, 0, 0, 0, 0, 0⟩

/-- `percentile` from `benchmark/output.go` (lines 286–307): linear
interpolation between closest ranks on already-sorted data.
`int(math.Floor rank)` and `int(math.Ceil rank)` are modelled by
`Int.floor`/`Int.ceil` on `ℚ` followed by `Int.toNat` (the code only
reaches them with `0 ≤ rank`). -/
def percentile (sorted : List ℚ) (p : ℚ) : ℚ :=
  if sorted.length = 0 then 0
  else if sorted.length = 1 then nth sorted 0
  else
    let rank : ℚ := (p / 100) * ((sorted.length : ℚ) - 1)
    let lowerIndex : ℤ := ⌊rank⌋
    let upperIndex : ℤ := ⌈rank⌉
    if lowerIndex = upperIndex then nth sorted lowerIndex.toNat
    else
      let weight : ℚ := rank - (lowerIndex : ℚ)
      nth sorted lowerIndex.toNat * (1 - weight) + nth sorted upperIndex.toNat * weight

/-- The sorted private copy made by `CalculateStatistics`
(`make` + `copy` + `sort.Float64s` on `sorted`, lines 250–253).
`sort.Float64s` sorts ascending; modelled by `List.insertionSort (· ≤ ·)`. -/
def sortedCopy (durations : List ℚ) : List ℚ :=
  durations.insertionSort (· ≤ ·)

/-- The population variance accumulated by `CalculateStatistics`
(lines 265–271): `Σ (d − mean)²` over the input, divided by `n`. -/
def variance (durations : List ℚ) (mean : ℚ) : ℚ :=
  ((durations.map (fun d => (d - mean) * (d - mean))).sum) / (durations.length : ℚ)

/-- `CalculateStatistics` from `benchmark/output.go` (lines 241–283).
The empty input returns the zero value; otherwise the metrics are
computed from the input (mean, variance) and from a sorted private copy
(median, min, max, percentiles). -/
noncomputable def CalculateStatistics (durations : List ℚ) : Statistics :=
  if durations.length = 0 then Statistics.zero
  else
    let sorted := sortedCopy durations
    let mean := durations.sum / (durations.length : ℚ)
    { N := durations.length
      Mean := mean
      Median := percentile sorted 50
      StdDev := Real.sqrt ((variance durations mean : ℚ) : ℝ)
      Min := nth sorted 0
      Max := nth sorted (sorted.length - 1)
      P90 := percentile sorted 90
      P95 := percentile sorted 95 }

/-- `percentileSpec` — Modelled from the spec: "percentile `p` uses the
linear-interpolation-between-closest-ranks method: rank = p/100 × (n−1);
interpolate between `floor(rank)` and `ceil(rank)` by the fractional
weight."  Stated for comparison with the source's `percentile`. -/
def percentileSpec (sorted : List ℚ) (p : ℚ) : ℚ :=
  let rank : ℚ := (p / 100) * ((sorted.length : ℚ) - 1)
  nth sorted (⌊rank⌋).toNat * (1 - (rank - (⌊rank⌋ : ℚ)))
    + nth sorted (⌈rank⌉).toNat * (rank - (⌊rank⌋ : ℚ))

/-- The interpolation value at a real-valued rank `r`:
`s[⌊r⌋] + (r − ⌊r⌋)·(s[⌈r⌉] − s[⌊r⌋])`. -/
def interpVal (s : List ℚ) (r : ℚ) : ℚ :=
  nth s (⌊r⌋).toNat + (r - (⌊r⌋ : ℚ)) * (nth s (⌈r⌉).toNat - nth s (⌊r⌋).toNat)

/-- The memory state of `CalculateStatistics` restricted to its two
slices: the caller-owned `durations` and the callee-local `sorted`. -/
structure StatsMem where
  durations : List ℚ
  sorted : List ℚ

/-- `sorted := make(...); copy(sorted, durations)` (output.go lines
251–252): allocate the private copy; `durations` is only read. -/
def copyToSorted (m : StatsMem) : StatsMem :=
  { m with sorted := m.durations }

/-- `sort.Float64s(sorted)` (output.go line 253): sort in place — the
mutation hits only the `sorted` slice. -/
def sortSorted (m : StatsMem) : StatsMem :=
  { m with sorted := m.sorted.insertionSort (· ≤ ·) }

/-- The slice states after `CalculateStatistics`'s copy-and-sort prologue
has run, started from the caller's slice. -/
def calcStatsMem (d : List ℚ) : StatsMem :=
  sortSorted (copyToSorted { durations := d, sorted := [] })

namespace Benchmark


/-- `Config` from `benchmark/runner.go`. -/
structure Config where
  Command : String
  Runs : ℕ
  Name : String
  OutputDir : String
  SkipWarmup : Bool

/-- `RunResult` from `benchmark/runner.go`; durations in seconds as `ℚ`. -/
structure RunResult where
  RunNumber : ℕ
  Duration : ℚ
  Success : Bool
  Error : String
  deriving DecidableEq

instance : Inhabited RunResult := ⟨⟨0, 0, false, ""⟩⟩

/-- `executeCommand` from `benchmark/runner.go` (lines 100–120).  The
shell's behaviour is supplied by an oracle mapping the invocation's run
number to (success, wall-clock seconds): success iff `cmd.Run()` returned
no error. -/
def executeCommand (oracle : ℕ → Bool × ℚ) (runNumber : ℕ) : RunResult :=
  { RunNumber := runNumber
    Duration := (oracle runNumber).2
    Success := (oracle runNumber).1
    Error := if (oracle runNumber).1 then "" else "exit status 1" }

/-- `Result` from `benchmark/runner.go` (timing bookkeeping fields
omitted). -/
structure Result where
  WarmupRun : Option RunResult
  Runs : List RunResult
  Stats : Statistics
  SuccessRate : ℚ

/-- The measured loop `for i := 1; i <= config.Runs; i++` of `Run`
(lines 63–74): every iteration appends `executeCommand(i, …)`,
whether it succeeded or not. -/
def measuredRuns (oracle : ℕ → Bool × ℚ) (n : ℕ) : List RunResult :=
  (List.range n).map (fun i => executeCommand oracle (i + 1))

/-- The successful runs' durations collected by `Run` (lines 80–88). -/
def successfulDurations (runs : List RunResult) : List ℚ :=
  (runs.filter (fun r => r.Success)).map (fun r => r.Duration)

/-- `successCount` accumulated by `Run` (lines 80–88). -/
def successCount (runs : List RunResult) : ℕ :=
  (runs.filter (fun r => r.Success)).length

/-- The `Result` assembled by `Run` after the measured loop (lines
76–96): statistics only when at least one run succeeded, success rate
against the configured run count. -/
noncomputable def mkResult (oracle : ℕ → Bool × ℚ) (cfg : Config)
    (warmup : Option RunResult) : Result :=
  let runs := measuredRuns oracle cfg.Runs
  let durations := successfulDurations runs
  { WarmupRun := warmup
    Runs := runs
    Stats := if 0 < durations.length then CalculateStatistics durations else Statistics.zero
    SuccessRate := ((successCount runs : ℚ) / (cfg.Runs : ℚ)) * 100 }

/-- `Run` from `benchmark/runner.go` (lines 39–97), paired with the trace
of run numbers passed to `executeCommand`, in order (0 is the warm-up).
A failed warm-up returns the wrapped error before the measured loop. -/
noncomputable def Run (oracle : ℕ → Bool × ℚ) (cfg : Config) :
    Except String Result × List ℕ :=
  let measuredTrace := (List.range cfg.Runs).map (fun i => i + 1)
  if cfg.SkipWarmup then
    (Except.ok (mkResult oracle cfg none), measuredTrace)
  else
    let warmup := executeCommand oracle 0
    if warmup.Success then
      (Except.ok (mkResult oracle cfg (some warmup)), 0 :: measuredTrace)
    else
      (Except.error ("warm-up run failed: " ++ warmup.Error), [0])

end Benchmark

namespace Matrix


/-- `ResourceConfig` from `matrix/config.go`. -/
structure ResourceConfig where
  CPUs : ℕ
  Memory : ℕ
  deriving DecidableEq

instance : Inhabited ResourceConfig := ⟨⟨0, 0⟩⟩

/-- `Config` from `matrix/config.go` (graph/sweep bookkeeping omitted). -/
structure Config where
  Image : String
  RepoURL : String
  Command : String
  Runs : ℕ
  OutputDir : String
  Name : String
  Configs : List ResourceConfig
  SkipWarmup : Bool
  Debug : Bool

/-- `ConfigResult` from `matrix/config.go`. -/
structure ConfigResult where
  Config : ResourceConfig
  Success : Bool
  Error : String
  Mean : ℚ
  Median : ℚ
  StdDev : ℝ
  Min : ℚ
  Max : ℚ
  P90 : ℚ
  P95 : ℚ
  SuccessRate : ℚ
  TotalRuns : ℕ
  SuccessRuns : ℕ

instance : Inhabited ConfigResult :=
  ⟨⟨default, false, "", 0, 0, 0, 0, 0, 0, 0, 0, 0, 0⟩⟩

/-- `MatrixResult` from `matrix/config.go`. -/
structure MatrixResult where
  Config : Config
  Results : List ConfigResult

/-- Docker lifecycle events observed while processing one configuration. -/
inductive DockerEvent where
  | created
  | stopped
  deriving DecidableEq

/-- The outside world for a single configuration of `runSingleConfig`:
success flags for the host/Docker steps, exit codes of the container
commands, the nested caliper invocation's per-run outcomes, and whether
the results JSON round-trips intact. -/
structure ConfigEnv where
  mkWorkspaceOk : Bool
  mkOutputOk : Bool
  createOk : Bool
  cloneExecOk : Bool
  cloneExit : ℤ
  copyBinaryOk : Bool
  chmodExecOk : Bool
  chmodExit : ℤ
  mkdirExecOk : Bool
  mkdirExit : ℤ
  benchExecOk : Bool
  copyResultsOk : Bool
  innerOracle : ℕ → Bool × ℚ
  jsonIntact : Bool

/-- The `benchmark.Config` of the nested caliper invocation that
`runSingleConfig` starts inside the container (runner.go lines 178–197):
same command, run count and warm-up flag as the matrix config. -/
def innerBenchConfig (mcfg : Config) : Benchmark.Config :=
  { Command := mcfg.Command
    Runs := mcfg.Runs
    Name := mcfg.Name
    OutputDir := "/workspace/results"
    SkipWarmup := mcfg.SkipWarmup }

/-- The nested caliper process's exit code: `1` when the benchmark
errors out (failed warm-up) or when any measured run failed
(`SuccessRate < 100` — cmd/root.go lines 260–263), else `0`. -/
noncomputable def innerExit (env : ConfigEnv) (mcfg : Config) : ℤ :=
  match (Benchmark.Run env.innerOracle (innerBenchConfig mcfg)).1 with
  | Except.error _ => 1
  | Except.ok r => if r.SuccessRate < 100 then 1 else 0

/-- The statistics fields `parseResultsJSON` (runner.go lines 259–300)
reads back out of the nested invocation's JSON file.  The file exists
only when the nested benchmark got past its warm-up (SaveJSON runs
before the exit-code check), and must additionally survive the
copy-out (`jsonIntact`). -/
noncomputable def parseResults (env : ConfigEnv) (mcfg : Config)
    (b : ConfigResult) : Option ConfigResult :=
  match (Benchmark.Run env.innerOracle (innerBenchConfig mcfg)).1 with
  | Except.ok r =>
      if env.jsonIntact then
        some { b with
          TotalRuns := mcfg.Runs
          SuccessRuns := Benchmark.successCount r.Runs
          SuccessRate := r.SuccessRate
          Mean := r.Stats.Mean
          Median := r.Stats.Median
          StdDev := r.Stats.StdDev
          Min := r.Stats.Min
          Max := r.Stats.Max
          P90 := r.Stats.P90
          P95 := r.Stats.P95 }
      else none
  | Except.error _ => none

/-- The code of `runSingleConfig` after the container exists — i.e. after
the `defer`red teardown has been registered (runner.go lines 131–256).
Every branch returns normally, so the scoped teardown runs exactly once
after it. -/
noncomputable def afterCreate (env : ConfigEnv) (mcfg : Config)
    (base : ConfigResult) : ConfigResult :=
  if env.cloneExecOk = false then { base with Error := "failed to execute git clone" }
  else if env.cloneExit ≠ 0 then { base with Error := "git clone failed" }
  else if env.copyBinaryOk = false then { base with Error := "failed to copy binary to container" }
  else if env.chmodExecOk = false ∨ env.chmodExit ≠ 0 then
    { base with Error := "failed to make binary executable" }
  else if env.mkdirExecOk = false ∨ env.mkdirExit ≠ 0 then
    { base with Error := "failed to create results directory" }
  else if env.benchExecOk = false then { base with Error := "failed to execute benchmark" }
  else if env.copyResultsOk = false then { base with Error := "failed to copy results from container" }
  else
    match parseResults env mcfg base with
    | some parsed => { parsed with Success := true }
    | none =>
        if innerExit env mcfg ≠ 0 then { base with Error := "benchmark failed" }
        else { base with Success := true }

/-- `runSingleConfig` from `matrix/runner.go` (lines 86–257), paired with
the Docker lifecycle events it emits.  The teardown (`container.Stop`,
stop-then-force-remove) is modelled as the event appended after
`afterCreate` returns, exactly where Go's `defer` runs it. -/
noncomputable def runSingleConfig (env : ConfigEnv) (mcfg : Config)
    (rc : ResourceConfig) : ConfigResult × List DockerEvent :=
  let base : ConfigResult :=
    { Config := rc, Success := false, Error := "", Mean := 0, Median := 0, StdDev := 0,
      Min := 0, Max := 0, P90 := 0, P95 := 0, SuccessRate := 0,
      TotalRuns := mcfg.Runs, SuccessRuns := 0 }
  if env.mkWorkspaceOk = false then
    ({ base with Error := "failed to create workspace directory" }, [])
  else if env.mkOutputOk = false then
    ({ base with Error := "failed to create output directory" }, [])
  else if env.createOk = false then
    ({ base with Error := "failed to create container" }, [])
  else
    (afterCreate env mcfg base, [DockerEvent.created, DockerEvent.stopped])

/-- The sequential loop of matrix `Run` (runner.go lines 66–80): one
`runSingleConfig` per input configuration, appended in input order,
regardless of each outcome. -/
noncomputable def matrixLoop (envs : ℕ → ConfigEnv) (mcfg : Config) :
    ℕ → List ResourceConfig → List ConfigResult
  | _, [] => []
  | i, rc :: rest => (runSingleConfig (envs i) mcfg rc).1 :: matrixLoop envs mcfg (i + 1) rest

/-- The host-level world of matrix `Run` before the loop (runner.go
lines 26–52): Docker client creation, image availability, output and
temp directories; plus the per-configuration worlds. -/
structure GlobalEnv where
  dockerClientOk : Bool
  ensureImageOk : Bool
  mkOutputDirOk : Bool
  mkTempOk : Bool
  configEnvs : ℕ → ConfigEnv

/-- Matrix `Run` from `matrix/runner.go` (lines 17–83). -/
noncomputable def Run (g : GlobalEnv) (mcfg : Config) : Except String MatrixResult :=
  if g.dockerClientOk = false then Except.error "failed to create Docker client"
  else if g.ensureImageOk = false then Except.error "failed to ensure Docker image"
  else if g.mkOutputDirOk = false then Except.error "failed to create output directory"
  else if g.mkTempOk = false then Except.error "failed to create temp directory"
  else Except.ok { Config := mcfg, Results := matrixLoop g.configEnvs mcfg 0 mcfg.Configs }

/-- The exit-code decision of `runMatrix` (cmd/matrix.go lines 145–152):
`os.Exit(1)` as soon as some `ConfigResult` is unsuccessful, otherwise a
normal return and process exit `0`. -/
def exitCode (m : MatrixResult) : ℕ :=
  if m.Results.all (fun r => r.Success) then 0 else 1

/-- A fully cooperative per-configuration world: every infrastructure
step succeeds, every nested run succeeds in one second. -/
def okEnv : ConfigEnv :=
  { mkWorkspaceOk := true, mkOutputOk := true, createOk := true
    cloneExecOk := true, cloneExit := 0, copyBinaryOk := true
    chmodExecOk := true, chmodExit := 0, mkdirExecOk := true, mkdirExit := 0
    benchExecOk := true, copyResultsOk := true
    innerOracle := fun _ => (true, 1), jsonIntact := true }

/-- A world in which every infrastructure step succeeds but only the
first of the nested benchmark's runs does (run 1 succeeds, run 2
fails). -/
def halfEnv : ConfigEnv :=
  { okEnv with innerOracle := fun n => (decide (n = 1), 1) }

/-- A two-run, one-configuration matrix invocation with warm-up
skipped. -/
def cexMatrixConfig : Config :=
  { Image := "ubuntu", RepoURL := "https://example.com/repo", Command := "make"
    Runs := 2, OutputDir := "./matrix-results", Name := "m"
    Configs := [⟨2, 8⟩], SkipWarmup := true, Debug := false }

/-- Host world for the counterexample/witness scenarios: all global
setup steps succeed. -/
def cexGlobalEnv : GlobalEnv :=
  { dockerClientOk := true, ensureImageOk := true, mkOutputDirOk := true
    mkTempOk := true, configEnvs := fun _ => halfEnv }

/-- Host world in which every step everywhere succeeds. -/
def okGlobalEnv : GlobalEnv :=
  { dockerClientOk := true, ensureImageOk := true, mkOutputDirOk := true
    mkTempOk := true, configEnvs := fun _ => okEnv }

end Matrix

/-- If the floor and the ceiling of a rational agree, the rational is that
integer. -/
theorem eq_floor_of_floor_eq_ceil {q : ℚ} (h : ⌊q⌋ = ⌈q⌉) : q = (⌊q⌋ : ℚ) :=
  le_antisymm (by rw [h]; exact Int.le_ceil q) (Int.floor_le q)

/-- On lists of length at least two, the source's `percentile` computes
exactly the spec's interpolation formula. -/
theorem percentile_eq_percentileSpec (s : List ℚ) (p : ℚ) (h2 : 2 ≤ s.length) :
    percentile s p = percentileSpec s p := by
  have h0 : s.length ≠ 0 := by omega
  have h1 : s.length ≠ 1 := by omega
  simp only [percentile, percentileSpec, h0, h1, if_false]
  set rank : ℚ := (p / 100) * ((s.length : ℚ) - 1) with hrank
  by_cases hfc : ⌊rank⌋ = ⌈rank⌉
  · have hint : rank = (⌊rank⌋ : ℚ) := eq_floor_of_floor_eq_ceil hfc
    rw [hfc] at hint
    simp [hfc, ← hint]
  · simp [hfc]

/-- Index-total form of sortedness: in a `≤`-sorted list, earlier entries
are at most later in-range entries. -/
theorem nth_le_nth_of_sorted {s : List ℚ} (hs : s.Sorted (· ≤ ·))
    {i j : ℕ} (hij : i ≤ j) (hj : j < s.length) : nth s i ≤ nth s j := by
  have hi : i < s.length := lt_of_le_of_lt hij hj
  have hgi : nth s i = s.get ⟨i, hi⟩ := by simp [nth, List.getD_eq_getElem?_getD, List.getElem?_eq_getElem hi]
  have hgj : nth s j = s.get ⟨j, hj⟩ := by simp [nth, List.getD_eq_getElem?_getD, List.getElem?_eq_getElem hj]
  rw [hgi, hgj]
  exact hs.rel_get_of_le (by exact hij)

/-- Every member of a `≤`-sorted list lies between its first and its last
entry. -/
theorem nth_zero_le_of_mem {s : List ℚ} (hs : s.Sorted (· ≤ ·)) {x : ℚ}
    (hx : x ∈ s) : nth s 0 ≤ x ∧ x ≤ nth s (s.length - 1) := by
  obtain ⟨i, hi⟩ := List.get_of_mem hx
  have hilt : (i : ℕ) < s.length := i.isLt
  have hgi : nth s (i : ℕ) = s.get i := by
    simp [nth, List.getD_eq_getElem?_getD, List.getElem?_eq_getElem hilt]
  constructor
  · have := nth_le_nth_of_sorted hs (Nat.zero_le (i : ℕ)) hilt
    rw [hgi, hi] at this
    exact this
  · have hle : (i : ℕ) ≤ s.length - 1 := by omega
    have hlast : s.length - 1 < s.length := by omega
    have := nth_le_nth_of_sorted hs hle hlast
    rw [hgi, hi] at this
    exact this

theorem percentileSpec_eq_interpVal (s : List ℚ) (p : ℚ) :
    percentileSpec s p = interpVal s ((p / 100) * ((s.length : ℚ) - 1)) := by
  simp only [percentileSpec, interpVal]
  ring

/-- Range facts for the floor and ceiling indices of a rank
`0 ≤ r ≤ n − 1`. -/
theorem rank_index_facts {s : List ℚ} {r : ℚ} (h0 : 0 ≤ r)
    (hr : r ≤ (s.length : ℚ) - 1) (h1 : 1 ≤ s.length) :
    (⌊r⌋).toNat < s.length ∧ (⌈r⌉).toNat < s.length ∧ (⌊r⌋).toNat ≤ (⌈r⌉).toNat := by
  have hf0 : (0 : ℤ) ≤ ⌊r⌋ := Int.le_floor.mpr (by exact_mod_cast h0)
  have hcle : ⌈r⌉ ≤ (s.length : ℤ) - 1 := by
    rw [Int.ceil_le]
    push_cast
    exact hr
  have hfc : ⌊r⌋ ≤ ⌈r⌉ := Int.floor_le_ceil r
  omega

/-- On a `≤`-sorted list, the interpolation value at a rank in
`[0, n − 1]` lies between the first and the last entry. -/
theorem interpVal_bounds {s : List ℚ} (hs : s.Sorted (· ≤ ·)) {r : ℚ}
    (h0 : 0 ≤ r) (hr : r ≤ (s.length : ℚ) - 1) (h1 : 1 ≤ s.length) :
    nth s 0 ≤ interpVal s r ∧ interpVal s r ≤ nth s (s.length - 1) := by
  obtain ⟨hfn, hcn, hfc⟩ := rank_index_facts h0 hr h1
  have hw0 : 0 ≤ r - (⌊r⌋ : ℚ) := sub_nonneg.mpr (Int.floor_le r)
  have hw1 : r - (⌊r⌋ : ℚ) ≤ 1 := by
    have := Int.lt_floor_add_one r
    linarith
  have hAB : nth s (⌊r⌋).toNat ≤ nth s (⌈r⌉).toNat := nth_le_nth_of_sorted hs hfc hcn
  have hA0 : nth s 0 ≤ nth s (⌊r⌋).toNat := nth_le_nth_of_sorted hs (Nat.zero_le _) hfn
  have hBlast : nth s (⌈r⌉).toNat ≤ nth s (s.length - 1) :=
    nth_le_nth_of_sorted hs (by omega) (by omega)
  constructor
  · have : 0 ≤ (r - (⌊r⌋ : ℚ)) * (nth s (⌈r⌉).toNat - nth s (⌊r⌋).toNat) :=
      mul_nonneg hw0 (sub_nonneg.mpr hAB)
    simp only [interpVal]
    linarith
  · have : (r - (⌊r⌋ : ℚ)) * (nth s (⌈r⌉).toNat - nth s (⌊r⌋).toNat)
        ≤ 1 * (nth s (⌈r⌉).toNat - nth s (⌊r⌋).toNat) :=
      mul_le_mul_of_nonneg_right hw1 (sub_nonneg.mpr hAB)
    simp only [interpVal]
    linarith

/-- On a `≤`-sorted list, the interpolation value is monotone in the rank
over `[0, n − 1]`. -/
theorem interpVal_mono {s : List ℚ} (hs : s.Sorted (· ≤ ·)) {r r' : ℚ}
    (h0 : 0 ≤ r) (hrr : r ≤ r') (hr' : r' ≤ (s.length : ℚ) - 1)
    (h1 : 1 ≤ s.length) : interpVal s r ≤ interpVal s r' := by
  have h0' : 0 ≤ r' := le_trans h0 hrr
  have hrle : r ≤ (s.length : ℚ) - 1 := le_trans hrr hr'
  obtain ⟨hfn, hcn, hfc⟩ := rank_index_facts h0 hrle h1
  obtain ⟨hfn', hcn', hfc'⟩ := rank_index_facts h0' hr' h1
  have hcc : ⌈r⌉ ≤ ⌈r'⌉ := Int.ceil_mono hrr
  have hff : ⌊r⌋ ≤ ⌊r'⌋ := Int.floor_mono hrr
  have hw0 : 0 ≤ r - (⌊r⌋ : ℚ) := sub_nonneg.mpr (Int.floor_le r)
  have hw0' : 0 ≤ r' - (⌊r'⌋ : ℚ) := sub_nonneg.mpr (Int.floor_le r')
  have hw1 : r - (⌊r⌋ : ℚ) ≤ 1 := by
    have := Int.lt_floor_add_one r
    linarith
  have hd0 : nth s (⌊r⌋).toNat ≤ nth s (⌈r⌉).toNat := nth_le_nth_of_sorted hs hfc hcn
  have hd0' : nth s (⌊r'⌋).toNat ≤ nth s (⌈r'⌉).toNat := nth_le_nth_of_sorted hs hfc' hcn'
  rcases eq_or_lt_of_le hff with hkk | hkk
  · -- same floor cell: compare the weights and the (sorted) slopes
    have hww : r - (⌊r⌋ : ℚ) ≤ r' - (⌊r'⌋ : ℚ) := by
      rw [← hkk]
      linarith
    have hcc' : nth s (⌈r⌉).toNat ≤ nth s (⌈r'⌉).toNat :=
      nth_le_nth_of_sorted hs (by omega) hcn'
    have hmul : (r - (⌊r⌋ : ℚ)) * (nth s (⌈r⌉).toNat - nth s (⌊r⌋).toNat)
        ≤ (r' - (⌊r'⌋ : ℚ)) * (nth s (⌈r'⌉).toNat - nth s (⌊r'⌋).toNat) := by
      apply mul_le_mul hww _ (sub_nonneg.mpr hd0) hw0'
      rw [← hkk]
      linarith
    rw [← hkk] at hmul
    simp only [interpVal, ← hkk]
    linarith
  · -- the ranks lie in different cells: pass through the boundary entries
    have hck : (⌈r⌉).toNat ≤ (⌊r'⌋).toNat := by
      have := Int.ceil_le_floor_add_one r
      have hf0 : (0 : ℤ) ≤ ⌊r⌋ := Int.le_floor.mpr (by exact_mod_cast h0)
      omega
    have hstep : nth s (⌈r⌉).toNat ≤ nth s (⌊r'⌋).toNat :=
      nth_le_nth_of_sorted hs hck hfn'
    have hup : interpVal s r ≤ nth s (⌈r⌉).toNat := by
      have : (r - (⌊r⌋ : ℚ)) * (nth s (⌈r⌉).toNat - nth s (⌊r⌋).toNat)
          ≤ 1 * (nth s (⌈r⌉).toNat - nth s (⌊r⌋).toNat) :=
        mul_le_mul_of_nonneg_right hw1 (sub_nonneg.mpr hd0)
      simp only [interpVal]
      linarith
    have hlow : nth s (⌊r'⌋).toNat ≤ interpVal s r' := by
      have : 0 ≤ (r' - (⌊r'⌋ : ℚ)) * (nth s (⌈r'⌉).toNat - nth s (⌊r'⌋).toNat) :=
        mul_nonneg hw0' (sub_nonneg.mpr hd0')
      simp only [interpVal]
      linarith
    linarith

/-- Unfolding `CalculateStatistics` on non-empty input. -/
theorem CalculateStatistics_eq (d : List ℚ) (hd : d ≠ []) :
    CalculateStatistics d =
      { N := d.length
        Mean := d.sum / (d.length : ℚ)
        Median := percentile (sortedCopy d) 50
        StdDev := Real.sqrt ((variance d (d.sum / (d.length : ℚ)) : ℚ) : ℝ)
        Min := nth (sortedCopy d) 0
        Max := nth (sortedCopy d) ((sortedCopy d).length - 1)
        P90 := percentile (sortedCopy d) 90
        P95 := percentile (sortedCopy d) 95 } := by
  have h : d.length ≠ 0 := by simpa using hd
  simp [CalculateStatistics, h]

/-- The rank `p/100·(n−1)` lies in `[0, n−1]` for `0 ≤ p ≤ 100`. -/
theorem rank_mem_range {p : ℚ} (hp0 : 0 ≤ p) (hp1 : p ≤ 100) {n : ℕ} (hn : 1 ≤ n) :
    0 ≤ (p / 100) * ((n : ℚ) - 1) ∧ (p / 100) * ((n : ℚ) - 1) ≤ (n : ℚ) - 1 := by
  have hn1 : (1 : ℚ) ≤ (n : ℚ) := by exact_mod_cast hn
  have h0 : (0 : ℚ) ≤ (n : ℚ) - 1 := by linarith
  have hple : p / 100 ≤ 1 := by
    rw [div_le_one (by norm_num)]
    exact hp1
  have hpge : 0 ≤ p / 100 := div_nonneg hp0 (by norm_num)
  exact ⟨mul_nonneg hpge h0, mul_le_of_le_one_left h0 hple⟩

/-- `percentile` is monotone in `p` over `[0, 100]` on sorted data. -/
theorem percentile_mono {s : List ℚ} (hs : s.Sorted (· ≤ ·)) {p q : ℚ}
    (hp0 : 0 ≤ p) (hpq : p ≤ q) (hq : q ≤ 100) :
    percentile s p ≤ percentile s q := by
  by_cases h2 : 2 ≤ s.length
  · rw [percentile_eq_percentileSpec s p h2, percentile_eq_percentileSpec s q h2,
      percentileSpec_eq_interpVal, percentileSpec_eq_interpVal]
    have h1 : 1 ≤ s.length := by omega
    obtain ⟨hr0, _⟩ := rank_mem_range hp0 (le_trans hpq hq) h1
    obtain ⟨_, hrq⟩ := rank_mem_range (le_trans hp0 hpq) hq h1
    apply interpVal_mono hs hr0 _ hrq h1
    apply mul_le_mul_of_nonneg_right _ (by
      have : (2 : ℚ) ≤ (s.length : ℚ) := by exact_mod_cast h2
      linarith)
    exact div_le_div_of_nonneg_right hpq (by norm_num) |>.trans_eq rfl
  · interval_cases h : s.length
    · have hnil : s = [] := List.length_eq_zero.mp h
      simp [percentile, hnil]
    · have hnil : s ≠ [] := by
        intro e
        rw [e] at h
        simp at h
      simp [percentile, h, hnil]

/-- `percentile` lies between the first and the last entry of sorted
non-empty data, for `p ∈ [0, 100]`. -/
theorem percentile_bounds {s : List ℚ} (hs : s.Sorted (· ≤ ·)) {p : ℚ}
    (hp0 : 0 ≤ p) (hp1 : p ≤ 100) (h1 : 1 ≤ s.length) :
    nth s 0 ≤ percentile s p ∧ percentile s p ≤ nth s (s.length - 1) := by
  by_cases h2 : 2 ≤ s.length
  · rw [percentile_eq_percentileSpec s p h2, percentileSpec_eq_interpVal]
    obtain ⟨hr0, hr1⟩ := rank_mem_range hp0 hp1 h1
    exact interpVal_bounds hs hr0 hr1 h1
  · have : s.length = 1 := by omega
    simp [percentile, this]

/-- The sorted private copy is sorted and a permutation of the input. -/
theorem sortedCopy_sorted (d : List ℚ) : (sortedCopy d).Sorted (· ≤ ·) :=
  List.sorted_insertionSort _ d

theorem sortedCopy_perm (d : List ℚ) : List.Perm (sortedCopy d) d :=
  List.perm_insertionSort _ d

theorem sortedCopy_length (d : List ℚ) : (sortedCopy d).length = d.length :=
  (sortedCopy_perm d).length_eq

/-- The mean of a non-empty list lies between the first and the last entry
of its sorted copy. -/
theorem mean_bounds (d : List ℚ) (hd : d ≠ []) :
    nth (sortedCopy d) 0 ≤ d.sum / (d.length : ℚ) ∧
      d.sum / (d.length : ℚ) ≤ nth (sortedCopy d) ((sortedCopy d).length - 1) := by
  have hlen0 : 0 < d.length := List.length_pos.mpr hd
  have hlenq : (0 : ℚ) < (d.length : ℚ) := by exact_mod_cast hlen0
  have hmem : ∀ x ∈ d, nth (sortedCopy d) 0 ≤ x ∧ x ≤ nth (sortedCopy d) ((sortedCopy d).length - 1) := by
    intro x hx
    exact nth_zero_le_of_mem (sortedCopy_sorted d) ((sortedCopy_perm d).mem_iff.mpr hx)
  constructor
  · rw [le_div_iff hlenq]
    have h := List.card_nsmul_le_sum d (nth (sortedCopy d) 0) (fun x hx => (hmem x hx).1)
    rw [nsmul_eq_mul] at h
    linarith
  · rw [div_le_iff hlenq]
    have h := List.sum_le_card_nsmul d (nth (sortedCopy d) ((sortedCopy d).length - 1))
      (fun x hx => (hmem x hx).2)
    rw [nsmul_eq_mul] at h
    linarith

/-- C9: For every non-empty list of durations, the `Statistics` returned
by `CalculateStatistics` satisfy min ≤ median ≤ p90 ≤ p95 ≤ max and
min ≤ mean ≤ max. -/
theorem calculateStatistics_ordered (d : List ℚ) (hd : d ≠ []) :
    (CalculateStatistics d).Min ≤ (CalculateStatistics d).Median ∧
    (CalculateStatistics d).Median ≤ (CalculateStatistics d).P90 ∧
    (CalculateStatistics d).P90 ≤ (CalculateStatistics d).P95 ∧
    (CalculateStatistics d).P95 ≤ (CalculateStatistics d).Max ∧
    (CalculateStatistics d).Min ≤ (CalculateStatistics d).Mean ∧
    (CalculateStatistics d).Mean ≤ (CalculateStatistics d).Max := by
  have hs := sortedCopy_sorted d
  have h1 : 1 ≤ (sortedCopy d).length := by
    rw [sortedCopy_length]
    exact List.length_pos.mpr hd
  simp only [CalculateStatistics_eq d hd]
  refine ⟨(percentile_bounds hs (by norm_num) (by norm_num) h1).1,
    percentile_mono hs (by norm_num) (by norm_num) (by norm_num),
    percentile_mono hs (by norm_num) (by norm_num) (by norm_num),
    (percentile_bounds hs (by norm_num) (by norm_num) h1).2,
    (mean_bounds d hd).1, (mean_bounds d hd).2⟩

/-- Witness for `calculateStatistics_ordered` at the concrete input
`[3, 1]`. -/
theorem calculateStatistics_ordered_witness :
    ([3, 1] : List ℚ) ≠ [] ∧
    ((CalculateStatistics [3, 1]).Min ≤ (CalculateStatistics [3, 1]).Median ∧
    (CalculateStatistics [3, 1]).Median ≤ (CalculateStatistics [3, 1]).P90 ∧
    (CalculateStatistics [3, 1]).P90 ≤ (CalculateStatistics [3, 1]).P95 ∧
    (CalculateStatistics [3, 1]).P95 ≤ (CalculateStatistics [3, 1]).Max ∧
    (CalculateStatistics [3, 1]).Min ≤ (CalculateStatistics [3, 1]).Mean ∧
    (CalculateStatistics [3, 1]).Mean ≤ (CalculateStatistics [3, 1]).Max) :=
  ⟨by simp, calculateStatistics_ordered [3, 1] (by simp)⟩

/-- C8: `CalculateStatistics []` returns the all-zero `Statistics` value
(no error, crash or division by zero: the function is total and the empty
case returns the zero value before any division). -/
theorem calculateStatistics_nil : CalculateStatistics [] = Statistics.zero := by
  simp [CalculateStatistics]

/-- C2 counterexample: on the single-element input `[2]`, the standard
deviation is `0`, not the element `2`, so not every statistic equals the
element. -/
theorem singleton_stdDev_counterexample :
    (CalculateStatistics [2]).StdDev = 0 ∧ (CalculateStatistics [2]).StdDev ≠ ((2 : ℚ) : ℝ) := by
  have h : (CalculateStatistics [2]).StdDev = Real.sqrt ((variance [2] (((2 : ℚ)) / 1) : ℚ) : ℝ) := by
    rw [CalculateStatistics_eq [2] (by simp)]
    norm_num
  have hv : variance [2] (((2 : ℚ)) / 1) = 0 := by
    norm_num [variance]
  rw [h, hv]
  norm_num

/-- C2 amended: for every single-element input `[x]`, every statistic
except the standard deviation equals `x`, and the standard deviation is
`0` (it equals `x` only when `x = 0`). -/
theorem calculateStatistics_singleton (x : ℚ) :
    (CalculateStatistics [x]).N = 1 ∧
    (CalculateStatistics [x]).Mean = x ∧
    (CalculateStatistics [x]).Median = x ∧
    (CalculateStatistics [x]).StdDev = 0 ∧
    (CalculateStatistics [x]).Min = x ∧
    (CalculateStatistics [x]).Max = x ∧
    (CalculateStatistics [x]).P90 = x ∧
    (CalculateStatistics [x]).P95 = x := by
  have hsc : sortedCopy [x] = [x] := rfl
  have hv : variance [x] x = 0 := by
    simp [variance]
  rw [CalculateStatistics_eq [x] (by simp)]
  simp [hsc, hv, percentile, nth]

/-- Concrete evaluation: the 90th percentile of `[10, 20, 30, 40]`. -/
theorem percentile_example_p90 : percentile [10, 20, 30, 40] 90 = 37 := by
  have hr : (90 : ℚ) / 100 * ((([10, 20, 30, 40] : List ℚ).length : ℚ) - 1) = 27 / 10 := by
    norm_num
  have hf : ⌊(27 / 10 : ℚ)⌋ = 2 := by
    rw [Int.floor_eq_iff]
    norm_num
  have hc : ⌈(27 / 10 : ℚ)⌉ = 3 := by
    rw [Int.ceil_eq_iff]
    norm_num
  have h2 : nth [10, 20, 30, 40] (Int.toNat 2) = 30 := rfl
  have h3 : nth [10, 20, 30, 40] (Int.toNat 3) = 40 := rfl
  simp only [percentile, hr, hf, hc, h2, h3]
  norm_num

/-- Concrete evaluation: the 95th percentile of `[10, 20, 30, 40]`. -/
theorem percentile_example_p95 : percentile [10, 20, 30, 40] 95 = 38.5 := by
  have hr : (95 : ℚ) / 100 * ((([10, 20, 30, 40] : List ℚ).length : ℚ) - 1) = 57 / 20 := by
    norm_num
  have hf : ⌊(57 / 20 : ℚ)⌋ = 2 := by
    rw [Int.floor_eq_iff]
    norm_num
  have hc : ⌈(57 / 20 : ℚ)⌉ = 3 := by
    rw [Int.ceil_eq_iff]
    norm_num
  have h2 : nth [10, 20, 30, 40] (Int.toNat 2) = 30 := rfl
  have h3 : nth [10, 20, 30, 40] (Int.toNat 3) = 40 := rfl
  simp only [percentile, hr, hf, hc, h2, h3]
  norm_num

theorem sortedCopy_example : sortedCopy [10, 20, 30, 40] = [10, 20, 30, 40] := by
  norm_num [sortedCopy, List.insertionSort, List.orderedInsert]

/-- C1: on every list with at least two elements the percentile
computation is the linear-interpolation-between-closest-ranks method
(rank = p/100 × (n−1), interpolated between `floor(rank)` and
`ceil(rank)` by the fractional weight), and on the input
`[10, 20, 30, 40]` p90 is exactly 37.0 and p95 exactly 38.5. -/
theorem percentile_linear_interpolation :
    (∀ (s : List ℚ) (p : ℚ), 2 ≤ s.length → percentile s p = percentileSpec s p) ∧
    (CalculateStatistics [10, 20, 30, 40]).P90 = 37 ∧
    (CalculateStatistics [10, 20, 30, 40]).P95 = 38.5 := by
  refine ⟨percentile_eq_percentileSpec, ?_, ?_⟩
  · rw [CalculateStatistics_eq [10, 20, 30, 40] (by simp), sortedCopy_example]
    exact percentile_example_p90
  · rw [CalculateStatistics_eq [10, 20, 30, 40] (by simp), sortedCopy_example]
    exact percentile_example_p95

/-- Witness for `percentile_linear_interpolation`: its universally
quantified refinement part instantiated at the concrete sorted list
`[1, 2]` and `p = 50`. -/
theorem percentile_linear_interpolation_witness :
    2 ≤ ([1, 2] : List ℚ).length ∧ percentile [1, 2] 50 = percentileSpec [1, 2] 50 :=
  ⟨by simp, percentile_linear_interpolation.1 [1, 2] 50 (by simp)⟩

/-- C10: `CalculateStatistics` leaves the caller's `durations` slice
unchanged — the sort for the percentiles happens on the private copy,
which is the list the percentile calls consume. -/
theorem calculateStatistics_preserves_input (d : List ℚ) :
    (calcStatsMem d).durations = d ∧
    (calcStatsMem d).sorted = sortedCopy d ∧
    (CalculateStatistics (calcStatsMem d).durations).P90 = percentile (calcStatsMem d).sorted 90 := by
  refine ⟨rfl, rfl, ?_⟩
  by_cases hd : d = []
  · subst hd
    simp [calcStatsMem, sortSorted, copyToSorted, sortedCopy, CalculateStatistics,
      Statistics.zero, percentile]
  · have h1 : (calcStatsMem d).durations = d := rfl
    have h2 : (calcStatsMem d).sorted = sortedCopy d := rfl
    rw [h1, h2, CalculateStatistics_eq d hd]

/-- The `N` field always equals the input length. -/
theorem CalculateStatistics_N (d : List ℚ) : (CalculateStatistics d).N = d.length := by
  by_cases hd : d = []
  · subst hd
    simp [CalculateStatistics, Statistics.zero]
  · rw [CalculateStatistics_eq d hd]

namespace Benchmark

theorem successfulDurations_length (runs : List RunResult) :
    (successfulDurations runs).length = successCount runs := by
  simp [successfulDurations, successCount]

/-- C3: whenever the benchmark reaches its measured loop (warm-up
skipped or successful), exactly `Runs` run results are recorded, the
`i`-th is the verbatim outcome of invocation `i+1` (failures recorded,
not dropped, and not stopping the loop: all of `1..R` appear in the
execution trace), and `Stats.N` equals the number of successful runs. -/
theorem run_records_every_run (oracle : ℕ → Bool × ℚ) (cfg : Config)
    (h : cfg.SkipWarmup = true ∨ (oracle 0).1 = true) :
    ∃ res : Result,
      (Run oracle cfg).1 = Except.ok res ∧
      res.Runs.length = cfg.Runs ∧
      (∀ i, i < cfg.Runs → res.Runs.getD i default = executeCommand oracle (i + 1)) ∧
      res.Stats.N = successCount res.Runs ∧
      (Run oracle cfg).2
        = (if cfg.SkipWarmup then [] else [0]) ++ (List.range cfg.Runs).map (fun i => i + 1) := by
  have hN : ∀ w, (mkResult oracle cfg w).Stats.N = successCount (measuredRuns oracle cfg.Runs) := by
    intro w
    by_cases hpos : 0 < (successfulDurations (measuredRuns oracle cfg.Runs)).length
    · simp only [mkResult, hpos, if_true, CalculateStatistics_N]
      exact successfulDurations_length _
    · have h0 : (successfulDurations (measuredRuns oracle cfg.Runs)).length = 0 := by omega
      simp only [mkResult, hpos, if_false, Statistics.zero]
      rw [← successfulDurations_length _, h0]
  have hlen : (measuredRuns oracle cfg.Runs).length = cfg.Runs := by
    simp [measuredRuns]
  have hget : ∀ i, i < cfg.Runs →
      (measuredRuns oracle cfg.Runs).getD i default = executeCommand oracle (i + 1) := by
    intro i hi
    simp [measuredRuns, List.getD_eq_getElem?_getD, List.getElem?_map, List.getElem?_range, hi]
  rcases h with h | h
  · refine ⟨mkResult oracle cfg none, ?_, hlen, hget, hN none, ?_⟩
    · simp [Run, h]
    · simp [Run, h]
  · by_cases hskip : cfg.SkipWarmup
    · refine ⟨mkResult oracle cfg none, ?_, hlen, hget, hN none, ?_⟩
      · simp [Run, hskip]
      · simp [Run, hskip]
    · refine ⟨mkResult oracle cfg (some (executeCommand oracle 0)), ?_, hlen, hget, hN _, ?_⟩
      · simp [Run, hskip, executeCommand, h]
      · simp [Run, hskip, executeCommand, h]

/-- Witness for `run_records_every_run`: two runs, warm-up skipped. -/
theorem run_records_every_run_witness :
    ((Config.mk "make" 2 "bench" "." true).SkipWarmup = true ∨
      ((fun _ => (true, 1)) 0 : Bool × ℚ).1 = true) ∧
    (∃ res : Result,
      (Run (fun _ => (true, 1)) (Config.mk "make" 2 "bench" "." true)).1 = Except.ok res ∧
      res.Runs.length = (Config.mk "make" 2 "bench" "." true).Runs ∧
      (∀ i, i < (Config.mk "make" 2 "bench" "." true).Runs →
        res.Runs.getD i default = executeCommand (fun _ => (true, 1)) (i + 1)) ∧
      res.Stats.N = successCount res.Runs ∧
      (Run (fun _ => (true, 1)) (Config.mk "make" 2 "bench" "." true)).2
        = (if (Config.mk "make" 2 "bench" "." true).SkipWarmup then [] else [0])
            ++ (List.range (Config.mk "make" 2 "bench" "." true).Runs).map (fun i => i + 1)) :=
  ⟨Or.inl rfl, run_records_every_run (fun _ => (true, 1)) (Config.mk "make" 2 "bench" "." true)
    (Or.inl rfl)⟩

/-- C4: with warm-up enabled, a failing warm-up makes `Run` return an
error, and the execution trace is exactly `[0]` — no measured run was
ever started. -/
theorem run_warmup_failure (oracle : ℕ → Bool × ℚ) (cfg : Config)
    (hw : cfg.SkipWarmup = false) (hf : (oracle 0).1 = false) :
    (Run oracle cfg).1
        = Except.error ("warm-up run failed: " ++ (executeCommand oracle 0).Error) ∧
    (Run oracle cfg).2 = [0] := by
  constructor
  · simp [Run, hw, executeCommand, hf]
  · simp [Run, hw, executeCommand, hf]

/-- Witness for `run_warmup_failure`: three configured runs, warm-up
enabled and failing. -/
theorem run_warmup_failure_witness :
    (Config.mk "make" 3 "bench" "." false).SkipWarmup = false ∧
    ((fun _ => (false, 1)) 0 : Bool × ℚ).1 = false ∧
    ((Run (fun _ => (false, 1)) (Config.mk "make" 3 "bench" "." false)).1
        = Except.error ("warm-up run failed: "
            ++ (executeCommand (fun _ => (false, 1)) 0).Error) ∧
      (Run (fun _ => (false, 1)) (Config.mk "make" 3 "bench" "." false)).2 = [0]) :=
  ⟨rfl, rfl, run_warmup_failure (fun _ => (false, 1)) (Config.mk "make" 3 "bench" "." false)
    rfl rfl⟩

end Benchmark

namespace Matrix

/-- `parseResults` never touches the `Config` field. -/
theorem parseResults_Config {env : ConfigEnv} {mcfg : Config} {b parsed : ConfigResult}
    (h : parseResults env mcfg b = some parsed) : parsed.Config = b.Config := by
  unfold parseResults at h
  rcases hr : (Benchmark.Run env.innerOracle (innerBenchConfig mcfg)).1 with e | r
  · rw [hr] at h
    cases h
  · rw [hr] at h
    by_cases hj : env.jsonIntact = true
    · simp only [hj, if_true] at h
      cases h
      rfl
    · simp only [Bool.not_eq_true] at hj
      simp [hj] at h

/-- `parseResults` succeeds exactly when the nested benchmark ran to
completion and the JSON survived the round trip. -/
theorem parseResults_isSome_iff (env : ConfigEnv) (mcfg : Config) (b : ConfigResult) :
    (∃ p, parseResults env mcfg b = some p) ↔
      ((∃ r, (Benchmark.Run env.innerOracle (innerBenchConfig mcfg)).1 = Except.ok r) ∧
        env.jsonIntact = true) := by
  unfold parseResults
  rcases hr : (Benchmark.Run env.innerOracle (innerBenchConfig mcfg)).1 with e | r
  · simp [hr]
  · by_cases hj : env.jsonIntact = true
    · simp [hr, hj]
    · simp only [Bool.not_eq_true] at hj
      simp [hr, hj]

/-- `afterCreate` never touches the `Config` field. -/
theorem afterCreate_Config (env : ConfigEnv) (mcfg : Config) (base : ConfigResult) :
    (afterCreate env mcfg base).Config = base.Config := by
  unfold afterCreate
  rcases hp : parseResults env mcfg base with _ | parsed
  · simp only [hp]
    split_ifs <;> rfl
  · simp only [hp]
    split_ifs <;> first | rfl | simpa using parseResults_Config hp

/-- Each `ConfigResult` carries the `ResourceConfig` it was produced
for. -/
theorem runSingleConfig_Config (env : ConfigEnv) (mcfg : Config) (rc : ResourceConfig) :
    (runSingleConfig env mcfg rc).1.Config = rc := by
  unfold runSingleConfig
  split_ifs <;> first | rfl | exact afterCreate_Config env mcfg _

/-- Exactly when a configuration is marked successful: every
infrastructure step succeeded, and either the results JSON was parsed or
the nested benchmark exited 0.  The nested benchmark's *per-run*
outcomes do not appear: a parsed JSON suffices even when runs failed. -/
theorem runSingleConfig_success_iff (env : ConfigEnv) (mcfg : Config) (rc : ResourceConfig) :
    (runSingleConfig env mcfg rc).1.Success = true ↔
      (env.mkWorkspaceOk = true ∧ env.mkOutputOk = true ∧ env.createOk = true ∧
       env.cloneExecOk = true ∧ env.cloneExit = 0 ∧ env.copyBinaryOk = true ∧
       env.chmodExecOk = true ∧ env.chmodExit = 0 ∧ env.mkdirExecOk = true ∧ env.mkdirExit = 0 ∧
       env.benchExecOk = true ∧ env.copyResultsOk = true ∧
       (((∃ r, (Benchmark.Run env.innerOracle (innerBenchConfig mcfg)).1 = Except.ok r) ∧
          env.jsonIntact = true) ∨ innerExit env mcfg = 0)) := by
  unfold runSingleConfig afterCreate
  by_cases h1 : env.mkWorkspaceOk = false
  · simp [h1]
  rw [Bool.not_eq_false] at h1
  by_cases h2 : env.mkOutputOk = false
  · simp [h1, h2]
  rw [Bool.not_eq_false] at h2
  by_cases h3 : env.createOk = false
  · simp [h1, h2, h3]
  rw [Bool.not_eq_false] at h3
  by_cases h4 : env.cloneExecOk = false
  · simp [h1, h2, h3, h4]
  rw [Bool.not_eq_false] at h4
  by_cases h5 : env.cloneExit ≠ 0
  · simp [h1, h2, h3, h4, h5]
  rw [not_not] at h5
  by_cases h6 : env.copyBinaryOk = false
  · simp [h1, h2, h3, h4, h5, h6]
  rw [Bool.not_eq_false] at h6
  by_cases h7 : env.chmodExecOk = false ∨ env.chmodExit ≠ 0
  · simp only [h1, h2, h3, h4, h5, h6]
    simp only [Bool.true_eq_false, if_false, ne_eq, not_true_eq_false, h7, if_true]
    constructor
    · intro hfalse
      cases hfalse
    · rintro ⟨_, _, _, _, _, _, hc1, hc2, _⟩
      rcases h7 with h7 | h7
      · rw [h7] at hc1
        cases hc1
      · exact (h7 hc2).elim
  push_neg at h7
  obtain ⟨h7a, h7b⟩ := h7
  rw [ne_eq, Bool.not_eq_false] at h7a
  by_cases h8 : env.mkdirExecOk = false ∨ env.mkdirExit ≠ 0
  · simp only [h1, h2, h3, h4, h5, h6, h7a, h7b]
    simp only [Bool.true_eq_false, if_false, ne_eq, not_true_eq_false, h8, if_true]
    constructor
    · intro hfalse
      cases hfalse
    · rintro ⟨_, _, _, _, _, _, _, _, hm1, hm2, _⟩
      rcases h8 with h8 | h8
      · rw [h8] at hm1
        cases hm1
      · exact (h8 hm2).elim
  push_neg at h8
  obtain ⟨h8a, h8b⟩ := h8
  rw [ne_eq, Bool.not_eq_false] at h8a
  by_cases h9 : env.benchExecOk = false
  · simp [h1, h2, h3, h4, h5, h6, h7a, h7b, h8a, h8b, h9]
  rw [Bool.not_eq_false] at h9
  by_cases h10 : env.copyResultsOk = false
  · simp [h1, h2, h3, h4, h5, h6, h7a, h7b, h8a, h8b, h9, h10]
  rw [Bool.not_eq_false] at h10
  rcases hp : parseResults env mcfg
      { Config := rc, Success := false, Error := "", Mean := 0, Median := 0, StdDev := 0,
        Min := 0, Max := 0, P90 := 0, P95 := 0, SuccessRate := 0,
        TotalRuns := mcfg.Runs, SuccessRuns := 0 } with _ | parsed
  · have hnone : ¬ ((∃ r, (Benchmark.Run env.innerOracle (innerBenchConfig mcfg)).1
        = Except.ok r) ∧ env.jsonIntact = true) := by
      rw [← parseResults_isSome_iff env mcfg
        { Config := rc, Success := false, Error := "", Mean := 0, Median := 0, StdDev := 0,
          Min := 0, Max := 0, P90 := 0, P95 := 0, SuccessRate := 0,
          TotalRuns := mcfg.Runs, SuccessRuns := 0 }]
      rintro ⟨p, hsome⟩
      rw [hp] at hsome
      cases hsome
    by_cases hex : innerExit env mcfg ≠ 0
    · simp [h1, h2, h3, h4, h5, h6, h7a, h7b, h8a, h8b, h9, h10, hp, hex, hnone]
    · rw [not_not] at hex
      simp [h1, h2, h3, h4, h5, h6, h7a, h7b, h8a, h8b, h9, h10, hp, hex]
  · have hsome : ((∃ r, (Benchmark.Run env.innerOracle (innerBenchConfig mcfg)).1
        = Except.ok r) ∧ env.jsonIntact = true) := by
      rw [← parseResults_isSome_iff env mcfg
        { Config := rc, Success := false, Error := "", Mean := 0, Median := 0, StdDev := 0,
          Min := 0, Max := 0, P90 := 0, P95 := 0, SuccessRate := 0,
          TotalRuns := mcfg.Runs, SuccessRuns := 0 }]
      exact ⟨parsed, hp⟩
    simp [h1, h2, h3, h4, h5, h6, h7a, h7b, h8a, h8b, h9, h10, hp, hsome]

/-- C6: once the container exists (workspace and output directories were
created and container creation succeeded), the teardown runs exactly
once, after the post-creation code — whatever that code did, including
every early return on clone, staging, execution and result-collection
failures (all branches of `afterCreate`). -/
theorem teardown_exactly_once (env : ConfigEnv) (mcfg : Config) (rc : ResourceConfig)
    (h1 : env.mkWorkspaceOk = true) (h2 : env.mkOutputOk = true)
    (h3 : env.createOk = true) :
    (runSingleConfig env mcfg rc).2 = [DockerEvent.created, DockerEvent.stopped] ∧
    (runSingleConfig env mcfg rc).2.count DockerEvent.stopped = 1 := by
  have htrace : (runSingleConfig env mcfg rc).2 = [DockerEvent.created, DockerEvent.stopped] := by
    unfold runSingleConfig
    simp [h1, h2, h3]
  refine ⟨htrace, ?_⟩
  rw [htrace]
  decide

/-- Witness for `teardown_exactly_once`: the all-failing nested world
(`halfEnv`) still tears the container down exactly once. -/
theorem teardown_exactly_once_witness :
    halfEnv.mkWorkspaceOk = true ∧ halfEnv.mkOutputOk = true ∧ halfEnv.createOk = true ∧
    ((runSingleConfig halfEnv cexMatrixConfig ⟨2, 8⟩).2
        = [DockerEvent.created, DockerEvent.stopped] ∧
      (runSingleConfig halfEnv cexMatrixConfig ⟨2, 8⟩).2.count DockerEvent.stopped = 1) :=
  ⟨rfl, rfl, rfl, teardown_exactly_once halfEnv cexMatrixConfig ⟨2, 8⟩ rfl rfl rfl⟩

theorem matrixLoop_length (envs : ℕ → ConfigEnv) (mcfg : Config) (i : ℕ)
    (l : List ResourceConfig) : (matrixLoop envs mcfg i l).length = l.length := by
  induction l generalizing i with
  | nil => rfl
  | cons rc rest ih => simp [matrixLoop, ih]

theorem matrixLoop_getD (envs : ℕ → ConfigEnv) (mcfg : Config) :
    ∀ (i j : ℕ) (l : List ResourceConfig), j < l.length →
      (matrixLoop envs mcfg i l).getD j default
        = (runSingleConfig (envs (i + j)) mcfg (l.getD j default)).1 := by
  intro i j l
  induction l generalizing i j with
  | nil =>
    intro h
    simp at h
  | cons rc rest ih =>
    intro h
    cases j with
    | zero => simp [matrixLoop]
    | succ j =>
      have := ih (i + 1) j (by simpa using h)
      simpa [matrixLoop, Nat.add_assoc, Nat.add_comm 1 j] using this

theorem matrixLoop_all_iff (envs : ℕ → ConfigEnv) (mcfg : Config) :
    ∀ (i : ℕ) (l : List ResourceConfig),
      ((matrixLoop envs mcfg i l).all (fun r => r.Success) = true ↔
        ∀ j, j < l.length →
          (runSingleConfig (envs (i + j)) mcfg (l.getD j default)).1.Success = true) := by
  intro i l
  induction l generalizing i with
  | nil => simp [matrixLoop]
  | cons rc rest ih =>
    simp only [matrixLoop, List.all_cons, Bool.and_eq_true, ih (i + 1)]
    constructor
    · rintro ⟨hhead, htail⟩ j hj
      cases j with
      | zero => simpa using hhead
      | succ j =>
        have := htail j (by simpa using hj)
        simpa [Nat.add_assoc, Nat.add_comm 1 j] using this
    · intro h
      refine ⟨by simpa using h 0 (by simp), fun j hj => ?_⟩
      have := h (j + 1) (by simpa using hj)
      simpa [Nat.add_assoc, Nat.add_comm 1 j] using this

/-- C5: with the matrix-level setup in place, the orchestrator emits
exactly one `ConfigResult` per input `ResourceConfig`, in input order,
whatever each configuration's world does — each entry is precisely the
outcome of `runSingleConfig` for its own configuration, so one
configuration's failure never drops or reorders the others. -/
theorem matrix_one_result_per_config (g : GlobalEnv) (mcfg : Config)
    (h1 : g.dockerClientOk = true) (h2 : g.ensureImageOk = true)
    (h3 : g.mkOutputDirOk = true) (h4 : g.mkTempOk = true) :
    ∃ res : MatrixResult,
      Run g mcfg = Except.ok res ∧
      res.Results.length = mcfg.Configs.length ∧
      (∀ i, i < mcfg.Configs.length →
        res.Results.getD i default
            = (runSingleConfig (g.configEnvs i) mcfg (mcfg.Configs.getD i default)).1 ∧
        (res.Results.getD i default).Config = mcfg.Configs.getD i default) := by
  refine ⟨{ Config := mcfg, Results := matrixLoop g.configEnvs mcfg 0 mcfg.Configs }, ?_, ?_, ?_⟩
  · unfold Run
    simp [h1, h2, h3, h4]
  · exact matrixLoop_length g.configEnvs mcfg 0 mcfg.Configs
  · intro i hi
    have hg := matrixLoop_getD g.configEnvs mcfg 0 i mcfg.Configs hi
    rw [Nat.zero_add] at hg
    refine ⟨hg, ?_⟩
    rw [hg]
    exact runSingleConfig_Config (g.configEnvs i) mcfg (mcfg.Configs.getD i default)

/-- Witness for `matrix_one_result_per_config`: the all-cooperative host
world with the one-configuration matrix. -/
theorem matrix_one_result_per_config_witness :
    okGlobalEnv.dockerClientOk = true ∧ okGlobalEnv.ensureImageOk = true ∧
    okGlobalEnv.mkOutputDirOk = true ∧ okGlobalEnv.mkTempOk = true ∧
    (∃ res : MatrixResult,
      Run okGlobalEnv cexMatrixConfig = Except.ok res ∧
      res.Results.length = cexMatrixConfig.Configs.length ∧
      (∀ i, i < cexMatrixConfig.Configs.length →
        res.Results.getD i default
            = (runSingleConfig (okGlobalEnv.configEnvs i) cexMatrixConfig
                (cexMatrixConfig.Configs.getD i default)).1 ∧
        (res.Results.getD i default).Config = cexMatrixConfig.Configs.getD i default)) :=
  ⟨rfl, rfl, rfl, rfl,
    matrix_one_result_per_config okGlobalEnv cexMatrixConfig rfl rfl rfl rfl⟩

/-- The nested benchmark of the counterexample world completes (warm-up
is skipped), so its results JSON exists. -/
theorem cex_inner_run :
    (Benchmark.Run halfEnv.innerOracle (innerBenchConfig cexMatrixConfig)).1
      = Except.ok (Benchmark.mkResult halfEnv.innerOracle
          (innerBenchConfig cexMatrixConfig) none) := by
  simp [Benchmark.Run, innerBenchConfig, cexMatrixConfig]

/-- In the counterexample world exactly one of the two measured runs
succeeds. -/
theorem cex_successCount :
    Benchmark.successCount (Benchmark.measuredRuns halfEnv.innerOracle 2) = 1 := by
  simp [Benchmark.successCount, Benchmark.measuredRuns, Benchmark.executeCommand,
    halfEnv, okEnv, List.range_succ]

/-- C7 counterexample: in a world where every infrastructure step
succeeds but one of the two benchmark runs inside the single
configuration fails, the matrix still exits with code 0 — the recorded
`ConfigResult` says 1 of 2 runs succeeded, yet it is marked successful
because its results JSON parsed. -/
theorem matrix_exit_zero_despite_failed_run :
    ∃ res : MatrixResult,
      Run cexGlobalEnv cexMatrixConfig = Except.ok res ∧
      exitCode res = 0 ∧
      (res.Results.getD 0 default).SuccessRuns = 1 ∧
      (res.Results.getD 0 default).TotalRuns = 2 ∧
      (halfEnv.innerOracle 2).1 = false := by
  have hbase :
      (runSingleConfig halfEnv cexMatrixConfig ⟨2, 8⟩).1
        = afterCreate halfEnv cexMatrixConfig
            { Config := ⟨2, 8⟩, Success := false, Error := "", Mean := 0, Median := 0,
              StdDev := 0, Min := 0, Max := 0, P90 := 0, P95 := 0, SuccessRate := 0,
              TotalRuns := cexMatrixConfig.Runs, SuccessRuns := 0 } := by
    unfold runSingleConfig
    norm_num [halfEnv, okEnv]
  obtain ⟨p, hp⟩ : ∃ p, parseResults halfEnv cexMatrixConfig
      { Config := ⟨2, 8⟩, Success := false, Error := "", Mean := 0, Median := 0,
        StdDev := 0, Min := 0, Max := 0, P90 := 0, P95 := 0, SuccessRate := 0,
        TotalRuns := cexMatrixConfig.Runs, SuccessRuns := 0 } = some p := by
    rw [parseResults_isSome_iff]
    exact ⟨⟨_, cex_inner_run⟩, rfl⟩
  have hpfields : p.SuccessRuns = 1 ∧ p.TotalRuns = 2 := by
    unfold parseResults at hp
    rw [cex_inner_run] at hp
    have hj : halfEnv.jsonIntact = true := rfl
    simp only [hj, if_true] at hp
    cases hp
    constructor
    · exact cex_successCount
    · rfl
  have hafter : afterCreate halfEnv cexMatrixConfig
      { Config := ⟨2, 8⟩, Success := false, Error := "", Mean := 0, Median := 0,
        StdDev := 0, Min := 0, Max := 0, P90 := 0, P95 := 0, SuccessRate := 0,
        TotalRuns := cexMatrixConfig.Runs, SuccessRuns := 0 }
      = { p with Success := true } := by
    unfold afterCreate
    rw [hp]
    norm_num [halfEnv, okEnv]
  have hresult :
      (runSingleConfig halfEnv cexMatrixConfig ⟨2, 8⟩).1 = { p with Success := true } := by
    rw [hbase, hafter]
  have hloop : matrixLoop cexGlobalEnv.configEnvs cexMatrixConfig 0 cexMatrixConfig.Configs
      = [(runSingleConfig halfEnv cexMatrixConfig ⟨2, 8⟩).1] := by
    rfl
  refine ⟨{ Config := cexMatrixConfig,
            Results := matrixLoop cexGlobalEnv.configEnvs cexMatrixConfig 0
              cexMatrixConfig.Configs }, ?_, ?_, ?_, ?_, rfl⟩
  · unfold Run
    norm_num [cexGlobalEnv]
  · simp only [exitCode, hloop, hresult, List.all_cons, List.all_nil]
    rfl
  · simp only [hloop, hresult, List.getD_cons_zero]
    exact hpfields.1
  · simp only [hloop, hresult, List.getD_cons_zero]
    exact hpfields.2

/-- C7 amended: the matrix process exits 0 exactly when every recorded
`ConfigResult` is marked successful — by `runSingleConfig_success_iff`
that is infrastructure success plus a parsed results JSON (or nested
exit 0), not per-run success: runs may have failed inside a
configuration that exits the matrix with code 0. -/
theorem matrix_exit_code_iff (g : GlobalEnv) (mcfg : Config)
    (h1 : g.dockerClientOk = true) (h2 : g.ensureImageOk = true)
    (h3 : g.mkOutputDirOk = true) (h4 : g.mkTempOk = true) :
    ∃ res : MatrixResult,
      Run g mcfg = Except.ok res ∧
      (exitCode res = 0 ↔
        ∀ j, j < mcfg.Configs.length →
          (runSingleConfig (g.configEnvs j) mcfg (mcfg.Configs.getD j default)).1.Success
            = true) := by
  refine ⟨{ Config := mcfg, Results := matrixLoop g.configEnvs mcfg 0 mcfg.Configs }, ?_, ?_⟩
  · unfold Run
    simp [h1, h2, h3, h4]
  · have hiff := matrixLoop_all_iff g.configEnvs mcfg 0 mcfg.Configs
    simp only [Nat.zero_add] at hiff
    constructor
    · intro h0 j hj
      have hall : (matrixLoop g.configEnvs mcfg 0 mcfg.Configs).all (fun r => r.Success)
          = true := by
        by_contra hno
        simp [exitCode, hno] at h0
      exact hiff.mp hall j hj
    · intro hall
      simp [exitCode, hiff.mpr hall]

/-- Witness for `matrix_exit_code_iff` at the all-cooperative world. -/
theorem matrix_exit_code_iff_witness :
    okGlobalEnv.dockerClientOk = true ∧ okGlobalEnv.ensureImageOk = true ∧
    okGlobalEnv.mkOutputDirOk = true ∧ okGlobalEnv.mkTempOk = true ∧
    (∃ res : MatrixResult,
      Run okGlobalEnv cexMatrixConfig = Except.ok res ∧
      (exitCode res = 0 ↔
        ∀ j, j < cexMatrixConfig.Configs.length →
          (runSingleConfig (okGlobalEnv.configEnvs j) cexMatrixConfig
            (cexMatrixConfig.Configs.getD j default)).1.Success = true)) :=
  ⟨rfl, rfl, rfl, rfl, matrix_exit_code_iff okGlobalEnv cexMatrixConfig rfl rfl rfl rfl⟩

end Matrix

end Caliper
